import Mathlib

/-
Verification development for sdsorter.py, a streaming CLI that relocates
timestamped audio files into dest/YYYY/MM/DD bucket folders.

Shallow embedding conventions:
- Paths are lists of components (List String); the Python Path / operator
  appends a component.
- Strings are restricted to ASCII for digit matching and lowercasing; the
  regex \d and str.lower of the source are modelled on ASCII characters.
- Machine effects (mkdir, copy2, move, chmod, stat) are modelled by explicit
  state passing over an FSState value; each primitive can raise, which is
  modelled by a fault oracle (Faults) that decides, per call, whether the
  host primitive throws and with what message. The try/except blocks of the
  source become total functions returning error outcomes.
- datetime(y, m, d) raising ValueError on an invalid calendar date is
  modelled by mkDatetime returning Option Date, with the proleptic Gregorian
  validity rule of the Python datetime module (years 1..9999).
-/

/-- Calendar date as produced by the Python datetime constructor. -/
structure Date where
  year : Nat
  month : Nat
  day : Nat
deriving DecidableEq

/-- Leap year rule of the proleptic Gregorian calendar (Python datetime). -/
def isLeap (y : Nat) : Bool :=
  y % 4 == 0 && (y % 100 != 0 || y % 400 == 0)

/-- Number of days in a month, as validated by datetime(y, m, d). -/
def daysInMonth (y m : Nat) : Nat :=
  if m = 2 then (if isLeap y then 29 else 28)
  else if m = 4 ∨ m = 6 ∨ m = 9 ∨ m = 11 then 30
  else 31

/-- Validity check performed by the datetime constructor (MINYEAR = 1,
MAXYEAR = 9999). -/
def validDate (y m d : Nat) : Bool :=
  decide (1 ≤ y ∧ y ≤ 9999 ∧ 1 ≤ m ∧ m ≤ 12 ∧ 1 ≤ d ∧ d ≤ daysInMonth y m)

/-- Model of datetime(y, m, d): some date on success, none when the
constructor raises ValueError. -/
def mkDatetime (y m d : Nat) : Option Date :=
  if validDate y m d then some ⟨y, m, d⟩ else none

/-- ASCII decimal digit test, modelling the regex class \d on ASCII input
(sdsorter.py line 57). -/
def isAsciiDigit (c : Char) : Bool :=
  decide ('0' ≤ c ∧ c ≤ '9')

/-- Numeric value of an ASCII digit character, as used by int() on the
captured regex groups. -/
def digToNat (c : Char) : Nat :=
  c.toNat - 48

/-- Attempt to match the pattern of SDS_REGEX, namely
4 digits, hyphen, 2 digits, hyphen, 2 digits, underscore, at the head of a
character list; returns the captured (year, month, day) numbers
(sdsorter.py line 57). -/
def matchSDSAt : List Char → Option (Nat × Nat × Nat)
  | y1 :: y2 :: y3 :: y4 :: s1 :: m1 :: m2 :: s2 :: d1 :: d2 :: u :: _ =>
    if isAsciiDigit y1 = true ∧ isAsciiDigit y2 = true ∧ isAsciiDigit y3 = true ∧
       isAsciiDigit y4 = true ∧ s1 = '-' ∧ isAsciiDigit m1 = true ∧
       isAsciiDigit m2 = true ∧ s2 = '-' ∧ isAsciiDigit d1 = true ∧
       isAsciiDigit d2 = true ∧ u = '_' then
      some (1000 * digToNat y1 + 100 * digToNat y2 + 10 * digToNat y3 + digToNat y4,
            10 * digToNat m1 + digToNat m2,
            10 * digToNat d1 + digToNat d2)
  else none
  | _ => none

/-- Model of SDS_REGEX.search: leftmost occurrence of the pattern in the
character list (sdsorter.py line 119). -/
def sdsSearch : List Char → Option (Nat × Nat × Nat)
  | [] => none
  | c :: rest =>
    match matchSDSAt (c :: rest) with
    | some r => some r
    | none => sdsSearch rest

/-- Model of date_from_filename (sdsorter.py lines 118 to 125): search the
name for the pattern; on a match, construct the datetime, returning none when
the constructor raises; none when no match exists. -/
def date_from_filename (name : String) : Option Date :=
  match sdsSearch name.data with
  | some (y, m, d) => mkDatetime y m d
  | none => none

/-- The date-source policy of the CLI flag --date-source. -/
inductive DateSource where
  | filename
  | mtime
deriving DecidableEq

/-- A source file as seen by the executor: parent directory components,
base name, and the calendar date of its last-modified timestamp (the value
datetime.fromtimestamp(stat().st_mtime) would produce, truncated to a
date). -/
structure FileInfo where
  dir : List String
  name : String
  mtimeDate : Date
deriving DecidableEq

/-- Fault oracle for the host filesystem primitives: for each call the
oracle decides whether the primitive raises, and with what message. A value
of none means the call succeeds. -/
structure Faults where
  statErr : List String → Option String
  mkdirErr : List String → Option String
  copyErr : List String → List String → Option String
  moveErr : List String → List String → Option String
  chmodErr : List String → Option String

/-- Oracle under which every filesystem primitive succeeds. -/
def noFaults : Faults :=
  ⟨fun _ => none, fun _ => none, fun _ _ => none, fun _ _ => none, fun _ => none⟩

/-- Model of choose_date (sdsorter.py lines 128 to 134): in filename mode,
return the parsed date or raise ValueError with the single message
No valid date in filename; in mtime mode, read the stat date (the stat call
may raise, per the oracle). -/
def choose_date (flt : Faults) (p : FileInfo) (source : DateSource) : Except String Date :=
  match source with
  | DateSource.filename =>
    match date_from_filename p.name with
    | some dt => Except.ok dt
    | none => Except.error (("No valid date in filename: ") ++ p.name)
  | DateSource.mtime =>
    match flt.statErr (p.dir ++ [p.name]) with
    | some e => Except.error e
    | none => Except.ok p.mtimeDate

/-- Zero-padded two digit decimal rendering, as produced by strftime with
percent-m and percent-d on month and day values (sdsorter.py line 138). For
the argument range of valid dates the value has exactly two digits. -/
def pad2 (n : Nat) : String :=
  ⟨[Nat.digitChar (n / 10 % 10), Nat.digitChar (n % 10)]⟩

/-- Zero-padded four digit decimal rendering, as produced by strftime with
percent-Y on datetime years (range 1 to 9999). -/
def pad4 (n : Nat) : String :=
  ⟨[Nat.digitChar (n / 1000 % 10), Nat.digitChar (n / 100 % 10),
    Nat.digitChar (n / 10 % 10), Nat.digitChar (n % 10)]⟩

/-- Model of dest_for (sdsorter.py lines 137 to 138): the Path operator /
appends one component per strftime field. -/
def dest_for (dstRoot : List String) (dt : Date) : List String :=
  dstRoot ++ [pad4 dt.year, pad2 dt.month, pad2 dt.day]

/-- Filesystem state visible to the executor: the set of existing
directories, the set of regular file paths, and the set of paths whose write
bits were stripped. Membership is what matters; lists model sets. -/
structure FSState where
  dirs : List (List String)
  files : List (List String)
  readonlyPaths : List (List String)
deriving DecidableEq

/-- All nonempty prefixes of a path, the directories that
mkdir(parents = True) guarantees to exist afterwards. -/
def prefixesOf (p : List String) : List (List String) :=
  (List.range p.length).map fun i => p.take (i + 1)

/-- Model of out_dir.mkdir(parents = True, exist_ok = True) under the fault
oracle: on success every missing ancestor of the target becomes an existing
directory; already existing directories are a no-op. -/
def mkdirParents (flt : Faults) (fs : FSState) (d : List String) : Except String FSState :=
  match flt.mkdirErr d with
  | some e => Except.error e
  | none =>
    Except.ok { fs with dirs := fs.dirs ++ (prefixesOf d).filter (fun q => !(fs.dirs.contains q)) }

/-- Model of shutil.copy2(src, dest) under the fault oracle: dest becomes an
existing file (a pre-existing dest file is overwritten). -/
def copyOp (flt : Faults) (fs : FSState) (s d : List String) : Except String FSState :=
  match flt.copyErr s d with
  | some e => Except.error e
  | none => Except.ok { fs with files := fs.files ++ [d] }

/-- Model of shutil.move(src, dest) under the fault oracle: src stops
existing, dest becomes an existing file. -/
def moveOp (flt : Faults) (fs : FSState) (s d : List String) : Except String FSState :=
  match flt.moveErr s d with
  | some e => Except.error e
  | none => Except.ok { fs with files := fs.files.erase s ++ [d] }

/-- Model of ensure_readonly (sdsorter.py lines 141 to 146): best effort
chmod whose own failure is logged and swallowed, never escalated. -/
def ensure_readonly (flt : Faults) (fs : FSState) (d : List String) : FSState :=
  match flt.chmodErr d with
  | some _ => fs
  | none => { fs with readonlyPaths := fs.readonlyPaths ++ [d] }

/-- The per-file result tuple returned by process_one:
(source path, destination path or None, error string or None). -/
structure Outcome where
  src : List String
  dest : Option (List String)
  err : Option String
deriving DecidableEq

/-- Immutable run configuration relevant to the executor. -/
structure RunCfg where
  dateSource : DateSource
  doMove : Bool
  dryRun : Bool
  readonly : Bool

/-- Model of process_one (sdsorter.py lines 149 to 171). The try block
covers date resolution, directory creation, copy and move: any raise there
is converted into an error outcome. Note that the mkdir call happens before
the dry-run test, exactly as in the source. -/
def process_one (flt : Faults) (fs : FSState) (p : FileInfo) (dstRoot : List String)
    (cfg : RunCfg) : Outcome × FSState :=
  let sp := p.dir ++ [p.name]
  match choose_date flt p cfg.dateSource with
  | Except.error e => (⟨sp, none, some e⟩, fs)
  | Except.ok dt =>
    let outDir := dest_for dstRoot dt
    match mkdirParents flt fs outDir with
    | Except.error e => (⟨sp, none, some e⟩, fs)
    | Except.ok fs1 =>
      let dest := outDir ++ [p.name]
      if cfg.dryRun then (⟨sp, some dest, none⟩, fs1)
      else if cfg.doMove then
        match moveOp flt fs1 sp dest with
        | Except.error e => (⟨sp, none, some e⟩, fs1)
        | Except.ok fs2 =>
          (⟨sp, some dest, none⟩, if cfg.readonly then ensure_readonly flt fs2 dest else fs2)
      else
        match copyOp flt fs1 sp dest with
        | Except.error e => (⟨sp, none, some e⟩, fs1)
        | Except.ok fs2 =>
          (⟨sp, some dest, none⟩, if cfg.readonly then ensure_readonly flt fs2 dest else fs2)

/-- Entries of a source tree, as the recursive walk sees them: regular
files, directories with their children, and symbolic links to directories.
The is_file test of the source is false for the last two kinds. -/
inductive FSEntry where
  | file (name : String)
  | dir (name : String) (children : List FSEntry)
  | linkDir (name : String)

/-- Base name of an entry, the Path name attribute. -/
def entryName : FSEntry → String
  | FSEntry.file n => n
  | FSEntry.dir n _ => n
  | FSEntry.linkDir n => n

/-- Model of Path.is_file: true exactly for regular files. -/
def isFileE : FSEntry → Bool
  | FSEntry.file _ => true
  | _ => false

mutual

/-- Walk one entry, yielding its own path plus, for a directory, the walk of
its children (the recursive traversal behind src.rglob). -/
def rglobOne (pre : List String) : FSEntry → List (List String × FSEntry)
  | FSEntry.file n => [(pre ++ [n], FSEntry.file n)]
  | FSEntry.linkDir n => [(pre ++ [n], FSEntry.linkDir n)]
  | FSEntry.dir n cs => (pre ++ [n], FSEntry.dir n cs) :: rglobMany (pre ++ [n]) cs

/-- Walk a list of sibling entries in order. -/
def rglobMany (pre : List String) : List FSEntry → List (List String × FSEntry)
  | [] => []
  | e :: es => rglobOne pre e ++ rglobMany pre es

end

/-- ASCII lowering of a string, modelling str.lower on ASCII input. -/
def lowerStr (s : String) : String :=
  ⟨s.data.map Char.toLower⟩

/-- Last index of a character in a list, counting from offset i. -/
def rfindAux : List Char → Char → Nat → Option Nat
  | [], _, _ => none
  | x :: xs, c, i =>
    match rfindAux xs c (i + 1) with
    | some j => some j
    | none => if x = c then some i else none

/-- Model of Path.suffix: the extension of the base name including the dot,
empty when the last dot is at position zero or at the very end. -/
def suffixOf (name : String) : String :=
  let l := name.data
  match rfindAux l '.' 0 with
  | some i => if 0 < i ∧ i < l.length - 1 then ⟨l.drop i⟩ else ("")
  | none => ("")

/-- The filter condition of iter_files: p.is_file() and
(not exts_norm or p.suffix.lower() in exts_norm). -/
def keepFile (extsNorm : List String) (e : FSEntry) : Bool :=
  isFileE e && (extsNorm.isEmpty || extsNorm.contains (lowerStr (suffixOf (entryName e))))

/-- Model of iter_files (sdsorter.py lines 111 to 115): lowercase the
extension list once, then keep exactly the walked entries passing the filter
condition, yielding their paths. -/
def iter_files (root : List FSEntry) (exts : List String) : List (List String) :=
  let extsNorm := exts.map lowerStr
  (rglobMany [] root).filterMap fun pe =>
    if keepFile extsNorm pe.2 = true then some pe.1 else none

/-- Model of the ext argument handling of parse_args (sdsorter.py lines 77
to 78): argparse with action append and default [".wav"] appends every
user-supplied value to the default list, never replacing it. -/
def argsExt (user : List String) : List String :=
  [".wav"] ++ user

/-- Model of handle_result (sdsorter.py lines 188 to 201) acting on the
error tally: an error outcome increments the tally, then either continues
(skip-errors) or raises SystemExit(1); the error value carries
(exit code, tally at the moment of the raise). -/
def handle_result (skipErrors : Bool) (errors : Nat) (o : Outcome) : Except (Nat × Nat) Nat :=
  match o.err with
  | some _ =>
    let e := errors + 1
    if skipErrors then Except.ok e else Except.error (1, e)
  | none => Except.ok errors

/-- Result of draining a sequence of outcomes through handle_result:
how many outcomes were consumed, the final error tally, and the SystemExit
code when the drain aborted. -/
structure AggResult where
  consumed : Nat
  errors : Nat
  abortCode : Option Nat
deriving DecidableEq

/-- The aggregation loop of main: feed outcomes to handle_result in order,
stopping at the first SystemExit. -/
def runAgg (skip : Bool) : List Outcome → Nat → AggResult
  | [], e => ⟨0, e, none⟩
  | o :: rest, e =>
    match handle_result skip e o with
    | Except.error pe => ⟨1, pe.2, some pe.1⟩
    | Except.ok e1 =>
      let r := runAgg skip rest e1
      ⟨r.consumed + 1, r.errors, r.abortCode⟩

/-- Number of error outcomes in a sequence. -/
def countErrors : List Outcome → Nat
  | [] => 0
  | o :: rest => (if o.err.isSome then 1 else 0) + countErrors rest

/-- Index of the first error outcome in a sequence, if any. -/
def firstErrIdx : List Outcome → Option Nat
  | [] => none
  | o :: rest => if o.err.isSome then some 0 else (firstErrIdx rest).map (fun n => n + 1)

/-- Model of the verdict of main (sdsorter.py lines 174 to 245): exit 2 when
the source does not exist or is not a directory, before any outcome is
consumed; otherwise drain the outcomes, exit with the SystemExit code on
abort, else exit 1 when the tally is positive and 0 otherwise. The Bool
records whether termination came from the SystemExit abort path. -/
def mainVerdict (srcExists srcIsDir skip : Bool) (outs : List Outcome) : Nat × Bool :=
  if srcExists = false ∨ srcIsDir = false then (2, false)
  else
    let r := runAgg skip outs 0
    match r.abortCode with
    | some c => (c, true)
    | none => (if 0 < r.errors then 1 else 0, false)

/-- Character list of a well-formed token of SDS_REGEX built from numeric
year, month and day, used to quantify over names containing a token. -/
def sdsToken (y m d : Nat) : List Char :=
  (pad4 y).data ++ ['-'] ++ (pad2 m).data ++ ['-'] ++ (pad2 d).data ++ ['_']

/-- Concrete successful outcome used for witnesses. -/
def oOk : Outcome :=
  ⟨["s", "a.wav"], some ["d", "2025", "09", "13", "a.wav"], none⟩

/-- Concrete error outcome used for witnesses. -/
def oErr : Outcome :=
  ⟨["s", "b.wav"], none, some (("No valid date in filename: ") ++ ("b.wav"))⟩

/-- Concrete source file for the dry-run evaluation. -/
def c1File : FileInfo :=
  ⟨["srcdir"], ("2025-09-13_03-35-28.wav"), ⟨2025, 1, 1⟩⟩

/-- Concrete filesystem on which the dry-run evaluation runs: only the
destination root exists; the date bucket directories do not. -/
def c1FS : FSState :=
  ⟨[["dst"]], [["srcdir", "2025-09-13_03-35-28.wav"]], []⟩

/-- Dry-run copy configuration in filename mode. -/
def c1Cfg : RunCfg :=
  ⟨DateSource.filename, false, true, false⟩

/-- Concrete source tree for enumerator witnesses: a directory holding an
upper-case wav file, a symlink to a directory, and a text file. -/
def c9Root : List FSEntry :=
  [FSEntry.dir ("d") [FSEntry.file ("a.WAV")], FSEntry.linkDir ("s"), FSEntry.file ("b.txt")]

theorem digitChar_injOn : ∀ a, a < 10 → ∀ b, b < 10 →
    Nat.digitChar a = Nat.digitChar b → a = b := by decide

theorem isAsciiDigit_digitChar : ∀ a, a < 10 → isAsciiDigit (Nat.digitChar a) = true := by decide

theorem digToNat_digitChar : ∀ a, a < 10 → digToNat (Nat.digitChar a) = a := by decide

theorem pad4_inj {a b : Nat} (ha : a < 10000) (hb : b < 10000) (h : pad4 a = pad4 b) :
    a = b := by
  have hd := congrArg String.data h
  simp only [pad4, List.cons.injEq, and_true] at hd
  obtain ⟨h1, h2, h3, h4⟩ := hd
  have e1 := digitChar_injOn _ (Nat.mod_lt _ (by omega)) _ (Nat.mod_lt _ (by omega)) h1
  have e2 := digitChar_injOn _ (Nat.mod_lt _ (by omega)) _ (Nat.mod_lt _ (by omega)) h2
  have e3 := digitChar_injOn _ (Nat.mod_lt _ (by omega)) _ (Nat.mod_lt _ (by omega)) h3
  have e4 := digitChar_injOn _ (Nat.mod_lt _ (by omega)) _ (Nat.mod_lt _ (by omega)) h4
  omega

theorem pad2_inj {a b : Nat} (ha : a < 100) (hb : b < 100) (h : pad2 a = pad2 b) :
    a = b := by
  have hd := congrArg String.data h
  simp only [pad2, List.cons.injEq, and_true] at hd
  obtain ⟨h1, h2⟩ := hd
  have e1 := digitChar_injOn _ (Nat.mod_lt _ (by omega)) _ (Nat.mod_lt _ (by omega)) h1
  have e2 := digitChar_injOn _ (Nat.mod_lt _ (by omega)) _ (Nat.mod_lt _ (by omega)) h2
  omega

theorem daysInMonth_le_31 (y m : Nat) : daysInMonth y m ≤ 31 := by
  unfold daysInMonth
  split
  · split <;> omega
  · split <;> omega

theorem validDate_bounds {y m d : Nat} (h : validDate y m d = true) :
    1 ≤ y ∧ y < 10000 ∧ 1 ≤ m ∧ m < 100 ∧ 1 ≤ d ∧ d < 100 := by
  simp only [validDate, decide_eq_true_eq] at h
  have := daysInMonth_le_31 y m
  omega

theorem runAgg_skip_all (outs : List Outcome) (e : Nat) :
    runAgg true outs e = ⟨outs.length, e + countErrors outs, none⟩ := by
  induction outs generalizing e with
  | nil => simp [runAgg, countErrors]
  | cons o rest ih =>
    cases ho : o.err with
    | none => simp [runAgg, handle_result, ho, ih, countErrors]
    | some s =>
      have hh : handle_result true e o = Except.ok (e + 1) := by
        simp [handle_result, ho]
      have harith : e + 1 + countErrors rest = e + (1 + countErrors rest) := by omega
      simp [runAgg, hh, ih, countErrors, ho, harith]

theorem runAgg_noerr (skip : Bool) (outs : List Outcome) (e : Nat)
    (h : countErrors outs = 0) : runAgg skip outs e = ⟨outs.length, e, none⟩ := by
  induction outs generalizing e with
  | nil => simp [runAgg]
  | cons o rest ih =>
    have ho : o.err = none := by
      cases hx : o.err
      · rfl
      · simp [countErrors, hx] at h
    have hrest : countErrors rest = 0 := by
      simp [countErrors, ho] at h
      exact h
    simp [runAgg, handle_result, ho, ih _ hrest]

theorem runAgg_firstErr (outs : List Outcome) (e i : Nat)
    (h : firstErrIdx outs = some i) : runAgg false outs e = ⟨i + 1, e + 1, some 1⟩ := by
  induction outs generalizing e i with
  | nil => simp [firstErrIdx] at h
  | cons o rest ih =>
    cases ho : o.err with
    | some s =>
      have hi : i = 0 := by
        simp [firstErrIdx, ho] at h
        omega
      subst hi
      simp [runAgg, handle_result, ho]
    | none =>
      simp only [firstErrIdx, ho] at h
      simp only [Option.isSome_none, Bool.false_eq_true, if_false, Option.map_eq_some'] at h
      obtain ⟨j, hj, hji⟩ := h
      simp [runAgg, handle_result, ho, ih _ j hj, ← hji]

theorem firstErrIdx_of_pos (outs : List Outcome) (h : 0 < countErrors outs) :
    ∃ i, firstErrIdx outs = some i := by
  induction outs with
  | nil => simp [countErrors] at h
  | cons o rest ih =>
    cases ho : o.err with
    | some s => exact ⟨0, by simp [firstErrIdx, ho]⟩
    | none =>
      have : 0 < countErrors rest := by simpa [countErrors, ho] using h
      obtain ⟨j, hj⟩ := ih this
      exact ⟨j + 1, by simp [firstErrIdx, ho, hj]⟩

theorem matchSDSAt_token (y m d : Nat) (hy : y < 10000) (hm : m < 100) (hd : d < 100)
    (rest : List Char) : matchSDSAt (sdsToken y m d ++ rest) = some (y, m, d) := by
  have a1 := isAsciiDigit_digitChar (y / 1000 % 10) (Nat.mod_lt _ (by omega))
  have a2 := isAsciiDigit_digitChar (y / 100 % 10) (Nat.mod_lt _ (by omega))
  have a3 := isAsciiDigit_digitChar (y / 10 % 10) (Nat.mod_lt _ (by omega))
  have a4 := isAsciiDigit_digitChar (y % 10) (Nat.mod_lt _ (by omega))
  have a5 := isAsciiDigit_digitChar (m / 10 % 10) (Nat.mod_lt _ (by omega))
  have a6 := isAsciiDigit_digitChar (m % 10) (Nat.mod_lt _ (by omega))
  have a7 := isAsciiDigit_digitChar (d / 10 % 10) (Nat.mod_lt _ (by omega))
  have a8 := isAsciiDigit_digitChar (d % 10) (Nat.mod_lt _ (by omega))
  have g1 := digToNat_digitChar (y / 1000 % 10) (Nat.mod_lt _ (by omega))
  have g2 := digToNat_digitChar (y / 100 % 10) (Nat.mod_lt _ (by omega))
  have g3 := digToNat_digitChar (y / 10 % 10) (Nat.mod_lt _ (by omega))
  have g4 := digToNat_digitChar (y % 10) (Nat.mod_lt _ (by omega))
  have g5 := digToNat_digitChar (m / 10 % 10) (Nat.mod_lt _ (by omega))
  have g6 := digToNat_digitChar (m % 10) (Nat.mod_lt _ (by omega))
  have g7 := digToNat_digitChar (d / 10 % 10) (Nat.mod_lt _ (by omega))
  have g8 := digToNat_digitChar (d % 10) (Nat.mod_lt _ (by omega))
  simp only [sdsToken, pad4, pad2, List.append_assoc, List.cons_append, List.nil_append,
    matchSDSAt, a1, a2, a3, a4, a5, a6, a7, a8, g1, g2, g3, g4, g5, g6, g7, g8,
    and_self, and_true, true_and, if_true, Option.some.injEq, Prod.mk.injEq]
  omega

theorem sdsSearch_token_isSome (pre post : List Char) (y m d : Nat)
    (hy : y < 10000) (hm : m < 100) (hd : d < 100) :
    (sdsSearch (pre ++ (sdsToken y m d ++ post))).isSome = true := by
  induction pre with
  | nil =>
    rw [List.nil_append]
    have hmatch := matchSDSAt_token y m d hy hm hd post
    cases htok : sdsToken y m d ++ post with
    | nil => simp [sdsToken] at htok
    | cons c cs =>
      rw [htok] at hmatch
      simp [sdsSearch, hmatch]
  | cons c cs ih =>
    rw [List.cons_append]
    simp only [sdsSearch]
    cases hm2 : matchSDSAt (c :: (cs ++ (sdsToken y m d ++ post)))
    · simpa using ih
    · simp

/-- C1: the claim states that under dry-run the executor returns a success
outcome with a synthetic destination and performs no filesystem
modification, in particular creates no directory. Evaluating process_one
on a concrete dry-run task shows the success outcome and the untouched file
set, but also that the date bucket directory dst/2025/09/13, absent
beforehand, exists afterwards: the mkdir call of the source runs before the
dry-run test, contradicting the claim and the help text of the dry-run flag
(only log actions, no writes). -/
theorem C1_dry_run_creates_directory :
    (process_one noFaults c1FS c1File ["dst"] c1Cfg).1 =
      ⟨["srcdir", "2025-09-13_03-35-28.wav"],
        some ["dst", "2025", "09", "13", "2025-09-13_03-35-28.wav"], none⟩ ∧
    (process_one noFaults c1FS c1File ["dst"] c1Cfg).2.files = c1FS.files ∧
    ["dst", "2025", "09", "13"] ∉ c1FS.dirs ∧
    ["dst", "2025", "09", "13"] ∈ (process_one noFaults c1FS c1File ["dst"] c1Cfg).2.dirs := by
  decide

/-- C2: for every fault oracle, filesystem state, file task and
configuration, process_one returns a well-formed outcome in which exactly
one of the destination path and the error description is present; the
function is total, so no raise from date resolution, mkdir, copy or move
escapes the executor. -/
theorem C2_executor_outcome_wellformed (flt : Faults) (fs : FSState) (p : FileInfo)
    (dstRoot : List String) (cfg : RunCfg) :
    ((process_one flt fs p dstRoot cfg).1.dest.isSome = true ∧
      (process_one flt fs p dstRoot cfg).1.err = none) ∨
    ((process_one flt fs p dstRoot cfg).1.dest = none ∧
      (process_one flt fs p dstRoot cfg).1.err.isSome = true) := by
  cases hc : choose_date flt p cfg.dateSource with
  | error e => simp [process_one, hc]
  | ok dt =>
    cases hm : mkdirParents flt fs (dest_for dstRoot dt) with
    | error e => simp [process_one, hc, hm]
    | ok fs1 =>
      cases hdry : cfg.dryRun with
      | true => simp [process_one, hc, hm, hdry]
      | false =>
        cases hmove : cfg.doMove with
        | true =>
          cases hmv : moveOp flt fs1 (p.dir ++ [p.name]) (dest_for dstRoot dt ++ [p.name]) with
          | error e => simp [process_one, hc, hm, hdry, hmove, hmv]
          | ok fs2 => simp [process_one, hc, hm, hdry, hmove, hmv]
        | false =>
          cases hcp : copyOp flt fs1 (p.dir ++ [p.name]) (dest_for dstRoot dt ++ [p.name]) with
          | error e => simp [process_one, hc, hm, hdry, hmove, hcp]
          | ok fs2 => simp [process_one, hc, hm, hdry, hmove, hcp]

/-- C10: in every case, success, dry-run and error alike, the outcome
returned by process_one carries the unchanged source path of its input file
task as the source field. -/
theorem C10_outcome_source_path_unchanged (flt : Faults) (fs : FSState) (p : FileInfo)
    (dstRoot : List String) (cfg : RunCfg) :
    (process_one flt fs p dstRoot cfg).1.src = p.dir ++ [p.name] := by
  cases hc : choose_date flt p cfg.dateSource with
  | error e => simp [process_one, hc]
  | ok dt =>
    cases hm : mkdirParents flt fs (dest_for dstRoot dt) with
    | error e => simp [process_one, hc, hm]
    | ok fs1 =>
      cases hdry : cfg.dryRun with
      | true => simp [process_one, hc, hm, hdry]
      | false =>
        cases hmove : cfg.doMove with
        | true =>
          cases hmv : moveOp flt fs1 (p.dir ++ [p.name]) (dest_for dstRoot dt ++ [p.name]) with
          | error e => simp [process_one, hc, hm, hdry, hmove, hmv]
          | ok fs2 => simp [process_one, hc, hm, hdry, hmove, hmv]
        | false =>
          cases hcp : copyOp flt fs1 (p.dir ++ [p.name]) (dest_for dstRoot dt ++ [p.name]) with
          | error e => simp [process_one, hc, hm, hdry, hmove, hcp]
          | ok fs2 => simp [process_one, hc, hm, hdry, hmove, hcp]

/-- C5 counterexample: the name 1111-99-99_2025-09-13_a.wav contains the
syntactically valid token 2025-09-13_ denoting the valid calendar date
2025-09-13, yet filename-mode resolution fails (returns none, hence an error
outcome), because the regex search returns the leftmost occurrence of the
syntactic pattern, 1111-99-99_, whose digits do not form a valid date. The
claim as stated, returning that calendar date regardless of preceding
characters, is therefore false at this input. -/
theorem C5_counterexample_earlier_invalid_token :
    ("1111-99-99_") ++ ("2025-09-13_") ++ ("a.wav") = ("1111-99-99_2025-09-13_a.wav") ∧
    validDate 2025 9 13 = true ∧
    sdsSearch (("1111-99-99_2025-09-13_a.wav").data) = some (1111, 99, 99) ∧
    date_from_filename ("1111-99-99_2025-09-13_a.wav") = none := by
  decide

/-- C5 amended: filename-mode resolution is governed by the leftmost
occurrence of the syntactic pattern. Whenever the leftmost occurrence
captures digits forming a valid calendar date, resolution returns exactly
that date, regardless of surrounding characters; moreover any well-formed
token occurring anywhere in the name guarantees that the search itself
matches (so only an earlier syntactic match can preempt a valid token). -/
theorem C5_first_token_resolution :
    (∀ (name : String) (y m d : Nat),
      sdsSearch name.data = some (y, m, d) → validDate y m d = true →
      date_from_filename name = some ⟨y, m, d⟩) ∧
    (∀ (pre post : List Char) (y m d : Nat), y < 10000 → m < 100 → d < 100 →
      (sdsSearch (pre ++ (sdsToken y m d ++ post))).isSome = true) := by
  constructor
  · intro name y m d hs hv
    simp [date_from_filename, hs, mkDatetime, hv]
  · intro pre post y m d hy hm hd
    exact sdsSearch_token_isSome pre post y m d hy hm hd

/-- C5 witness: concrete instantiation of both parts of the amended claim:
the name a2025-09-13_b.wav resolves to 2025-09-13, and a token embedded
between arbitrary characters is found by the search. -/
theorem C5_first_token_resolution_witness :
    sdsSearch (("a2025-09-13_b.wav").data) = some (2025, 9, 13) ∧
    validDate 2025 9 13 = true ∧
    date_from_filename ("a2025-09-13_b.wav") = some ⟨2025, 9, 13⟩ ∧
    (sdsSearch ((("99-").data) ++ (sdsToken 2025 9 13 ++ ((".wav").data)))).isSome = true := by
  refine ⟨by decide, by decide, ?_, ?_⟩
  · exact C5_first_token_resolution.1 ("a2025-09-13_b.wav") 2025 9 13 (by decide) (by decide)
  · exact C5_first_token_resolution.2 (("99-").data) ((".wav").data) 2025 9 13 (by decide)
      (by decide) (by decide)

/-- C6 counterexample: the source does not distinguish the two failure
reasons the claim names. A name whose leftmost token exists but is
calendar-invalid (2025-13-01_a.wav) and a name containing no token at all
(nodate.wav) both make date_from_filename return none, and choose_date then
raises the one ValueError whose text is the same single template
No valid date in filename followed by the name, in both cases: there is no
InvalidDate versus NoDateFound distinction anywhere in the executor. -/
theorem C6_counterexample_single_error_reason :
    sdsSearch (("2025-13-01_a.wav").data) = some (2025, 13, 1) ∧
    date_from_filename ("2025-13-01_a.wav") = none ∧
    sdsSearch (("nodate.wav").data) = none ∧
    date_from_filename ("nodate.wav") = none ∧
    choose_date noFaults ⟨["s"], ("2025-13-01_a.wav"), ⟨2025, 1, 1⟩⟩ DateSource.filename =
      Except.error (("No valid date in filename: ") ++ ("2025-13-01_a.wav")) ∧
    choose_date noFaults ⟨["s"], ("nodate.wav"), ⟨2025, 1, 1⟩⟩ DateSource.filename =
      Except.error (("No valid date in filename: ") ++ ("nodate.wav")) := by
  refine ⟨by decide, by decide, by decide, by decide, ?_, ?_⟩
  · have h : date_from_filename ("2025-13-01_a.wav") = none := by decide
    simp [choose_date, h]
  · have h : date_from_filename ("nodate.wav") = none := by decide
    simp [choose_date, h]

/-- C6 amended: both failure cases of filename-mode resolution, a token
found whose digits are calendar-invalid and no token anywhere in the name,
are converted into an error outcome by the executor, but with one single
undifferentiated reason, the ValueError text No valid date in filename
followed by the name; the filesystem is untouched in that case. -/
theorem C6_resolution_failure_single_reason (flt : Faults) (fs : FSState) (p : FileInfo)
    (dstRoot : List String) (cfg : RunCfg)
    (hmode : cfg.dateSource = DateSource.filename)
    (hfail : date_from_filename p.name = none) :
    process_one flt fs p dstRoot cfg =
      (⟨p.dir ++ [p.name], none, some (("No valid date in filename: ") ++ p.name)⟩, fs) := by
  simp [process_one, choose_date, hmode, hfail]

/-- C6 witness: the amended theorem applied to a concrete no-token file. -/
theorem C6_resolution_failure_single_reason_witness :
    date_from_filename ("nodate.wav") = none ∧
    process_one noFaults ⟨[], [], []⟩ ⟨["s"], ("nodate.wav"), ⟨2025, 1, 1⟩⟩ ["d"]
        ⟨DateSource.filename, false, false, false⟩ =
      (⟨["s", "nodate.wav"], none, some (("No valid date in filename: ") ++ ("nodate.wav"))⟩,
        ⟨[], [], []⟩) := by
  refine ⟨by decide, ?_⟩
  exact C6_resolution_failure_single_reason noFaults ⟨[], [], []⟩
    ⟨["s"], ("nodate.wav"), ⟨2025, 1, 1⟩⟩ ["d"] ⟨DateSource.filename, false, false, false⟩
    rfl (by decide)

/-- C8: dest_for is a pure function of the root and the date; it renders
the year on four digits and month and day on two zero-padded digits, and
under a fixed root it is injective over valid calendar dates: equal dates
give equal directories and distinct dates give distinct directories. -/
theorem C8_mapper_shape_and_injective (root : List String) (d1 d2 : Date)
    (h1 : validDate d1.year d1.month d1.day = true)
    (h2 : validDate d2.year d2.month d2.day = true) :
    (dest_for root d1 = dest_for root d2 ↔ d1 = d2) ∧
    dest_for root d1 = root ++ [pad4 d1.year, pad2 d1.month, pad2 d1.day] ∧
    (pad4 d1.year).length = 4 ∧ (pad2 d1.month).length = 2 ∧ (pad2 d1.day).length = 2 := by
  obtain ⟨hy1, hy1u, hm1, hm1u, hd1, hd1u⟩ := validDate_bounds h1
  obtain ⟨hy2, hy2u, hm2, hm2u, hd2, hd2u⟩ := validDate_bounds h2
  refine ⟨⟨fun h => ?_, fun h => by rw [h]⟩, rfl, rfl, rfl, rfl⟩
  have hl : [pad4 d1.year, pad2 d1.month, pad2 d1.day] =
      [pad4 d2.year, pad2 d2.month, pad2 d2.day] := by
    have := h
    simpa [dest_for] using this
  simp only [List.cons.injEq, and_true] at hl
  obtain ⟨e1, e2, e3⟩ := hl
  have hy := pad4_inj hy1u hy2u e1
  have hmm := pad2_inj hm1u hm2u e2
  have hdd := pad2_inj hd1u hd2u e3
  cases d1
  cases d2
  simp_all

/-- C8 witness: the theorem applied to two concrete distinct valid dates
under a concrete root. -/
theorem C8_mapper_shape_and_injective_witness :
    validDate 2025 9 13 = true ∧ validDate 2024 2 29 = true ∧
    (dest_for [("dst" : String)] ⟨2025, 9, 13⟩ = dest_for [("dst" : String)] ⟨2024, 2, 29⟩ ↔
      (⟨2025, 9, 13⟩ : Date) = ⟨2024, 2, 29⟩) := by
  refine ⟨by decide, by decide, ?_⟩
  exact (C8_mapper_shape_and_injective [("dst" : String)] ⟨2025, 9, 13⟩ ⟨2024, 2, 29⟩
    (by decide) (by decide)).1

/-- C7: for every source tree and every extension set the CLI can produce
(default plus appended values), the enumerator yields a path exactly when
the walk reaches a regular file there whose lowercased suffix is in the
lowercased allowed set: directories, symlinks to directories and files with
non-matching extensions are never yielded. -/
theorem C7_enumerator_yields_exactly_matching_files (root : List FSEntry) (user : List String)
    (p : List String) :
    p ∈ iter_files root (argsExt user) ↔
      ∃ e : FSEntry, (p, e) ∈ rglobMany [] root ∧ isFileE e = true ∧
        ((argsExt user).map lowerStr).contains (lowerStr (suffixOf (entryName e))) = true := by
  have hne : ((argsExt user).map lowerStr).isEmpty = false := rfl
  unfold iter_files
  rw [List.mem_filterMap]
  constructor
  · rintro ⟨⟨q, e⟩, hmem, hf⟩
    by_cases hk : keepFile ((argsExt user).map lowerStr) e = true
    · rw [if_pos hk] at hf
      obtain rfl : q = p := by injection hf
      unfold keepFile at hk
      rw [hne] at hk
      simp only [Bool.false_or, Bool.and_eq_true] at hk
      exact ⟨e, hmem, hk.1, hk.2⟩
    · rw [if_neg hk] at hf
      cases hf
  · rintro ⟨e, hmem, hfile, hcont⟩
    refine ⟨(p, e), hmem, ?_⟩
    have hk : keepFile ((argsExt user).map lowerStr) e = true := by
      unfold keepFile
      rw [hne, Bool.false_or, hfile, hcont]
      rfl
    show (if keepFile ((argsExt user).map lowerStr) e = true then some p else none) = some p
    rw [if_pos hk]

/-- C9: argparse with action append and default [.wav] only ever appends,
so the default extension stays allowed for every invocation: any regular
file whose lowercased suffix is .wav is enumerated no matter which extra
extensions the user passed. -/
theorem C9_default_wav_extension_kept (root : List FSEntry) (user : List String)
    (p : List String) (e : FSEntry) (hmem : (p, e) ∈ rglobMany [] root)
    (hfile : isFileE e = true) (hsuf : lowerStr (suffixOf (entryName e)) = (".wav")) :
    argsExt user = (".wav") :: user ∧ p ∈ iter_files root (argsExt user) := by
  refine ⟨rfl, ?_⟩
  unfold iter_files
  rw [List.mem_filterMap]
  refine ⟨(p, e), hmem, ?_⟩
  have hw : lowerStr (".wav") = (".wav") := by decide
  have hc : ((argsExt user).map lowerStr).contains (lowerStr (suffixOf (entryName e))) = true := by
    rw [hsuf]
    show ((".wav" :: user).map lowerStr).contains (".wav") = true
    rw [List.map_cons, List.contains_cons, hw]
    simp
  have hk : keepFile ((argsExt user).map lowerStr) e = true := by
    unfold keepFile
    have hne : ((argsExt user).map lowerStr).isEmpty = false := rfl
    rw [hne, Bool.false_or, hfile, hc]
    rfl
  show (if keepFile ((argsExt user).map lowerStr) e = true then some p else none) = some p
  rw [if_pos hk]

/-- C9 witness: in a tree holding d/a.WAV (upper case), a symlink and a
text file, the upper case wav file is enumerated although the user passed
only an mp3 extension filter. -/
theorem C9_default_wav_extension_kept_witness :
    ((["d", "a.WAV"], FSEntry.file ("a.WAV")) ∈ rglobMany [] c9Root) ∧
    isFileE (FSEntry.file ("a.WAV")) = true ∧
    lowerStr (suffixOf (entryName (FSEntry.file ("a.WAV")))) = (".wav") ∧
    ["d", "a.WAV"] ∈ iter_files c9Root (argsExt [".mp3"]) := by
  have h1 : (["d", "a.WAV"], FSEntry.file ("a.WAV")) ∈ rglobMany [] c9Root := by
    simp [c9Root, rglobMany, rglobOne]
  exact ⟨h1, rfl, by decide,
    (C9_default_wav_extension_kept c9Root [".mp3"] (["d", "a.WAV"]) (FSEntry.file ("a.WAV"))
      h1 rfl (by decide)).2⟩

/-- C3: aggregator policy. An error outcome increments the error tally in
both modes; with skip-errors on, the drain consumes every outcome, tallies
exactly the error outcomes and, when at least one error occurred, the final
process verdict is 1 without aborting; with skip-errors off, the drain
raises SystemExit(1) at the first error outcome, having consumed exactly
the outcomes up to and including it, so no subsequent outcome is
aggregated, and the process terminates with the fatal non-zero verdict 1. -/
theorem C3_aggregator_skip_vs_abort :
    (∀ (e : Nat) (o : Outcome), o.err.isSome = true →
      handle_result true e o = Except.ok (e + 1) ∧
      handle_result false e o = Except.error (1, e + 1)) ∧
    (∀ outs : List Outcome, runAgg true outs 0 = ⟨outs.length, countErrors outs, none⟩) ∧
    (∀ outs : List Outcome, 0 < countErrors outs →
      mainVerdict true true true outs = (1, false)) ∧
    (∀ (outs : List Outcome) (i : Nat), firstErrIdx outs = some i →
      runAgg false outs 0 = ⟨i + 1, 1, some 1⟩ ∧
      mainVerdict true true false outs = (1, true)) := by
  refine ⟨?_, ?_, ?_, ?_⟩
  · intro e o ho
    cases hx : o.err with
    | none => rw [hx] at ho; cases ho
    | some s => simp [handle_result, hx]
  · intro outs
    simpa using runAgg_skip_all outs 0
  · intro outs hpos
    have h := runAgg_skip_all outs 0
    simp only [mainVerdict, Bool.true_eq_false, or_self, if_false, h]
    simp [hpos, Nat.pos_iff_ne_zero]
  · intro outs i hi
    have h := runAgg_firstErr outs 0 i hi
    refine ⟨by simpa using h, ?_⟩
    simp only [mainVerdict, Bool.true_eq_false, or_self, if_false]
    rw [show (0 : Nat) + 1 = 1 from rfl] at h
    rw [h]

/-- C3 witness: concrete drains of the outcome list [ok, err, ok]. -/
theorem C3_aggregator_skip_vs_abort_witness :
    handle_result true 0 oErr = Except.ok 1 ∧
    runAgg true [oOk, oErr, oOk] 0 = ⟨3, 1, none⟩ ∧
    mainVerdict true true true [oOk, oErr, oOk] = (1, false) ∧
    runAgg false [oOk, oErr, oOk] 0 = ⟨2, 1, some 1⟩ := by
  refine ⟨(C3_aggregator_skip_vs_abort.1 0 oErr (by decide)).1,
    C3_aggregator_skip_vs_abort.2.1 [oOk, oErr, oOk],
    C3_aggregator_skip_vs_abort.2.2.1 [oOk, oErr, oOk] (by decide),
    (C3_aggregator_skip_vs_abort.2.2.2 [oOk, oErr, oOk] 1 (by decide)).1⟩

/-- C4 counterexample: the four terminal outcomes do not map to distinct
exit code values. A run without skip-errors hitting one error terminates
through the fatal SystemExit abort path with code 1, while a run with
skip-errors that completes after tallying an error also exits with code 1:
a fatal abort and a completed partial success share the same exit code, so
the codes do not distinguish the four terminal outcomes as distinct
values. -/
theorem C4_counterexample_abort_equals_partial :
    mainVerdict true true false [oErr] = (1, true) ∧
    mainVerdict true true true [oErr, oOk] = (1, false) ∧
    (mainVerdict true true false [oErr]).1 = (mainVerdict true true true [oErr, oOk]).1 := by
  decide

/-- C4 amended: the exit code is 0 on full success (zero per-file errors),
1 when the run completed with one or more per-file errors, 2 when the
source directory is missing or not a directory (decided before any outcome
is consumed), and 1 again on a fatal abort: the codes distinguish full
success, the error classes, and precondition failure, but fatal abort and
partial success-with-errors share the value 1. -/
theorem C4_exit_codes :
    (∀ (se sd skip : Bool) (outs : List Outcome), se = false ∨ sd = false →
      mainVerdict se sd skip outs = (2, false)) ∧
    (∀ (skip : Bool) (outs : List Outcome), countErrors outs = 0 →
      mainVerdict true true skip outs = (0, false)) ∧
    (∀ outs : List Outcome, 0 < countErrors outs →
      mainVerdict true true true outs = (1, false)) ∧
    (∀ outs : List Outcome, 0 < countErrors outs →
      mainVerdict true true false outs = (1, true)) := by
  refine ⟨?_, ?_, ?_, ?_⟩
  · intro se sd skip outs h
    simp [mainVerdict, h]
  · intro skip outs h
    have hr := runAgg_noerr skip outs 0 h
    simp [mainVerdict, hr, h]
  · intro outs hpos
    have h := runAgg_skip_all outs 0
    simp only [mainVerdict, Bool.true_eq_false, or_self, if_false, h]
    simp [hpos, Nat.pos_iff_ne_zero]
  · intro outs hpos
    obtain ⟨i, hi⟩ := firstErrIdx_of_pos outs hpos
    have h := runAgg_firstErr outs 0 i hi
    simp only [mainVerdict, Bool.true_eq_false, or_self, if_false]
    rw [show (0 : Nat) + 1 = 1 from rfl] at h
    rw [h]

/-- C4 witness: the amended exit code map applied to concrete runs. -/
theorem C4_exit_codes_witness :
    mainVerdict false true false [oOk] = (2, false) ∧
    mainVerdict true true false [oOk] = (0, false) ∧
    mainVerdict true true true [oErr] = (1, false) ∧
    mainVerdict true true false [oErr] = (1, true) := by
  refine ⟨C4_exit_codes.1 false true false [oOk] (Or.inl rfl),
    C4_exit_codes.2.1 false [oOk] (by decide),
    C4_exit_codes.2.2.1 [oErr] (by decide),
    C4_exit_codes.2.2.2 [oErr] (by decide)⟩
